import Mathlib

/-!
Shallow embedding of `src/JoyPanel.tsx` from the foxglove-joystick panel.

JavaScript numbers carried by the mapping table and the Joy message are
modelled as `Int`: the embedded operations only copy, compare, add and
negate them at integral values.  A JS `Map` (insertion-ordered, unique
keys) is modelled as an association list built exclusively through
`mapSet`, which preserves the position of a replaced key and appends a
fresh one, exactly as `Map.prototype.set` does.
-/

namespace JoyPanel

/-- The `KbMap` record type of `JoyPanel.tsx` (lines 19-24):
`{ button: number; axis: number; direction: number; value: number }`. -/
structure KbMap where
  button : Int
  axis : Int
  direction : Int
  value : Int
  deriving Repr, DecidableEq

/-- One entry of the mapping definition (`kbmapping1.json`): the fields the
initializer at lines 35-43 reads from each JSON value. -/
structure KbMapDef where
  button : Int
  axis : Int
  direction : String
  deriving Repr, DecidableEq

/-- The body of the loop at lines 36-41: build a `KbMap` from a definition
entry, parsing `direction === "+" ? 1 : 0` and starting at `value = 0`. -/
def makeKbMap (d : KbMapDef) : KbMap :=
  { button := d.button
    axis := d.axis
    direction := if d.direction = "+" then 1 else 0
    value := 0 }

/-- The tracked-keys table: a JS `Map<string, KbMap>` as an insertion-ordered
association list. -/
abbrev TrackedKeys : Type := List (String × KbMap)

/-- `Map.prototype.has`. -/
def hasKey (m : TrackedKeys) (k : String) : Bool :=
  m.any (fun p => p.1 = k)

/-- `Map.prototype.set`: replace in place when the key exists, append
otherwise. -/
def mapSet (m : TrackedKeys) (k : String) (v : KbMap) : TrackedKeys :=
  if hasKey m k then m.map (fun p => if p.1 = k then (k, v) else p)
  else m ++ [(k, v)]

/-- The `trackedKeys` initializer (lines 32-45): fold the mapping definition
into a fresh `Map`, one `keyMap.set(key, k)` per entry.  No validation is
performed. -/
def trackedKeysInit (defs : List (String × KbMapDef)) : TrackedKeys :=
  defs.foldl (fun m p => mapSet m p.1 (makeKbMap p.2)) []

/-- The updater shared by `handleKeyDown` / `handleKeyUp` (lines 146-172):
when the map has the key, copy the map and set the `value` of that entry to `v`;
otherwise return the old map unchanged. -/
def setValue (m : TrackedKeys) (k : String) (v : Int) : TrackedKeys :=
  if hasKey m k then
    m.map (fun p => if p.1 = k then (p.1, { p.2 with value := v }) else p)
  else m

/-- `handleKeyDown` (lines 146-158). -/
def handleKeyDown (m : TrackedKeys) (k : String) : TrackedKeys :=
  setValue m k 1

/-- `handleKeyUp` (lines 160-172). -/
def handleKeyUp (m : TrackedKeys) (k : String) : TrackedKeys :=
  setValue m k 0

/-- `while (arr.length <= n) arr.push(0)` (lines 201-203 and 206-208). -/
def densePad (l : List Int) (n : Nat) : List Int :=
  l ++ List.replicate (n + 1 - l.length) 0

/-- One iteration of the `trackedKeys?.forEach` fold (lines 199-211):
`if (value.button >= 0)` write the button slot, `else if (value.axis >= 0)`
accumulate into the axis slot, else do nothing.  State is `(axes, buttons)`. -/
def foldEntry (st : List Int × List Int) (e : KbMap) : List Int × List Int :=
  if 0 ≤ e.button then
    (st.1, (densePad st.2 e.button.toNat).set e.button.toNat e.value)
  else if 0 ≤ e.axis then
    ((densePad st.1 e.axis.toNat).set e.axis.toNat
      ((densePad st.1 e.axis.toNat).getD e.axis.toNat 0 +
        (if 0 < e.direction then 1 else -1) * e.value),
     st.2)
  else st

/-- The whole fold at lines 196-211, over the values of the map in insertion
order, starting from empty `axes` and `buttons`. -/
def buildArrays (es : List KbMap) : List Int × List Int :=
  es.foldl foldEntry ([], [])

/-- The values of the tracked-keys map, in iteration (insertion) order. -/
def vals (m : TrackedKeys) : List KbMap :=
  m.map (fun p => p.2)

/-- `rostime` stamp. -/
structure Time where
  sec : Int
  nsec : Int
  deriving Repr, DecidableEq

/-- `std_msgs/Header` as used by the panel. -/
structure Header where
  stamp : Time
  frame_id : String
  deriving Repr, DecidableEq

/-- The `Joy` message: header plus dense axes/buttons arrays. -/
structure Joy where
  header : Header
  axes : List Int
  buttons : List Int
  deriving Repr, DecidableEq

/-- The keyboard-built `tmpJoy` (lines 213-220). -/
def buildKeyboardJoy (m : TrackedKeys) (frameId : String) (stamp : Time) : Joy :=
  { header := { frame_id := frameId, stamp := stamp }
    axes := (buildArrays (vals m)).1
    buttons := (buildArrays (vals m)).2 }

/-- The replay effect (lines 97-110): take the last inbound message, if any,
and re-stamp it: same `stamp`, configured `frame_id`, axes and buttons copied
by `Array.from`.  When there is no message, `joy` is left unchanged. -/
def replayEffect (messages : List Joy) (publishFrameId : String)
    (oldJoy : Option Joy) : Option Joy :=
  match messages.getLast? with
  | some latestJoy =>
      some
        { header := { stamp := latestJoy.header.stamp, frame_id := publishFrameId }
          axes := latestJoy.axes
          buttons := latestJoy.buttons }
  | none => oldJoy

/-- The calls the advertise/unadvertise effect can emit. -/
inductive AdCall where
  | unadvertise (topic : String)
  | advertise (topic : String) (msgType : String)
  deriving Repr, DecidableEq

/-- The advertise effect (lines 225-235): when publish mode is on, a truthy
previous topic is unadvertised, then the configured topic is advertised and
remembered.  JS truthiness: `undefined` and `""` are falsy.  Returns the
emitted calls in order together with the new `pubTopic` state. -/
def advertiseEffect (publishMode : Bool) (oldPubTopic : Option String)
    (pubJoyTopic : String) : List AdCall × Option String :=
  if publishMode then
    ((match oldPubTopic with
      | some t => if t ≠ "" then [AdCall.unadvertise t] else []
      | none => []) ++ [AdCall.advertise pubJoyTopic "sensor_msgs/Joy"],
     some pubJoyTopic)
  else ([], oldPubTopic)

/-- The `dataSource` configuration values. -/
inductive DataSource where
  | subJoyTopic
  | gamepad
  | keyboard
  | interactive
  deriving Repr, DecidableEq

/-- The panel state the keyboard-related effects read and write. -/
structure PanelState where
  dataSource : DataSource
  kbEnabled : Bool
  trackedKeys : TrackedKeys
  publishFrameId : String
  joy : Option Joy
  deriving DecidableEq

/-- The keyboard frame-build effect (lines 188-223): bail out unless the
data source is keyboard and the tracker is enabled, otherwise fold the
tracked keys into a fresh `Joy` and store it. -/
def runKeyboardEffect (s : PanelState) (stamp : Time) : PanelState :=
  if s.dataSource ≠ DataSource.keyboard then s
  else if ¬ s.kbEnabled then s
  else { s with joy := some (buildKeyboardJoy s.trackedKeys s.publishFrameId stamp) }

/-- External events driving the keyboard-related part of the panel. -/
inductive PEvent where
  | keyDown (k : String) (stamp : Time)
  | keyUp (k : String) (stamp : Time)
  | setSource (d : DataSource) (stamp : Time)
  | setKbEnabled (b : Bool) (stamp : Time)
  deriving Repr, DecidableEq

/-- One event step of the panel.  A key event updates `trackedKeys` through
the handlers; the frame-build effect re-runs only when its dependencies
changed, i.e. when the handler produced a new map object (the key is
tracked).  Changing the data source or the enable switch re-runs the
effect with the new configuration. -/
def step (s : PanelState) (e : PEvent) : PanelState :=
  match e with
  | PEvent.keyDown k stamp =>
      if hasKey s.trackedKeys k then
        runKeyboardEffect { s with trackedKeys := handleKeyDown s.trackedKeys k } stamp
      else s
  | PEvent.keyUp k stamp =>
      if hasKey s.trackedKeys k then
        runKeyboardEffect { s with trackedKeys := handleKeyUp s.trackedKeys k } stamp
      else s
  | PEvent.setSource d stamp =>
      runKeyboardEffect { s with dataSource := d } stamp
  | PEvent.setKbEnabled b stamp =>
      runKeyboardEffect { s with kbEnabled := b } stamp

/-- Tracker-level key events, for state-invariant claims. -/
inductive KEvent where
  | down (k : String)
  | up (k : String)
  deriving Repr, DecidableEq

/-- Apply one tracker-level event. -/
def applyKEvent (m : TrackedKeys) : KEvent → TrackedKeys
  | KEvent.down k => handleKeyDown m k
  | KEvent.up k => handleKeyUp m k

/-- Apply a sequence of tracker-level events in arrival order. -/
def applyEvents (m : TrackedKeys) (evs : List KEvent) : TrackedKeys :=
  evs.foldl applyKEvent m

/-! ### Specification-side characterizations of the fold -/

/-- The value written by the last entry (in iteration order) that targets
button index `i`, if any. -/
def lastButtonValue (es : List KbMap) (i : Nat) : Option Int :=
  match es with
  | [] => none
  | e :: rest =>
      match lastButtonValue rest i with
      | some v => some v
      | none => if e.button = (i : Int) then some e.value else none

/-- The signed contribution of one entry to its axis. -/
def axisDelta (e : KbMap) : Int :=
  (if 0 < e.direction then 1 else -1) * e.value

/-- The total contribution accumulated into axis `i`: the sum of
`axisDelta` over the entries that reach the axis branch for `i`. -/
def axisSum (es : List KbMap) (i : Nat) : Int :=
  match es with
  | [] => 0
  | e :: rest =>
      (if ¬ 0 ≤ e.button ∧ e.axis = (i : Int) then axisDelta e else 0) + axisSum rest i

/-- The length the buttons array reaches, starting from length `n`. -/
def buttonsLenFrom (es : List KbMap) (n : Nat) : Nat :=
  match es with
  | [] => n
  | e :: rest =>
      buttonsLenFrom rest (if 0 ≤ e.button then max n (e.button.toNat + 1) else n)

/-- The length the axes array reaches, starting from length `n`. -/
def axesLenFrom (es : List KbMap) (n : Nat) : Nat :=
  match es with
  | [] => n
  | e :: rest =>
      axesLenFrom rest
        (if ¬ 0 ≤ e.button ∧ 0 ≤ e.axis then max n (e.axis.toNat + 1) else n)

/-! ### Helper lemmas -/

theorem densePad_length (l : List Int) (n : Nat) :
    (densePad l n).length = max l.length (n + 1) := by
  simp [densePad]
  omega

theorem getD_densePad (l : List Int) (n i : Nat) :
    (densePad l n).getD i 0 = l.getD i 0 := by
  unfold densePad
  rcases Nat.lt_or_ge i l.length with h | h
  · exact List.getD_append _ _ _ _ h
  · rw [List.getD_append_right _ _ _ _ h, List.getD_eq_default _ _ h]
    rcases Nat.lt_or_ge (i - l.length) (List.replicate (n + 1 - l.length) (0 : Int)).length
      with h2 | h2
    · rw [List.getD_eq_getElem _ _ h2, List.getElem_replicate]
    · exact List.getD_eq_default _ _ h2

theorem getD_set (l : List Int) (n i : Nat) (v : Int) :
    (l.set n v).getD i 0 = if n = i ∧ n < l.length then v else l.getD i 0 := by
  rcases Nat.lt_or_ge i l.length with h | h
  · rw [List.getD_eq_getElem _ _ (by simpa using h),
      List.getElem_set, List.getD_eq_getElem _ _ h]
    by_cases hni : n = i
    · subst hni
      simp [h]
    · simp [hni]
  · rw [List.getD_eq_default _ _ (by simpa using h), List.getD_eq_default _ _ h]
    have : ¬ (n = i ∧ n < l.length) := by omega
    simp [this]

theorem densePad_lt (l : List Int) (n : Nat) : n < (densePad l n).length := by
  rw [densePad_length]
  omega

theorem lastButtonValue_cons (e : KbMap) (rest : List KbMap) (i : Nat) :
    lastButtonValue (e :: rest) i =
      match lastButtonValue rest i with
      | some v => some v
      | none => if e.button = (i : Int) then some e.value else none := rfl

theorem axisSum_cons (e : KbMap) (rest : List KbMap) (i : Nat) :
    axisSum (e :: rest) i =
      (if ¬ 0 ≤ e.button ∧ e.axis = (i : Int) then axisDelta e else 0) +
        axisSum rest i := rfl

/-- Effect of one fold iteration on the buttons array, slot by slot. -/
theorem foldEntry_buttons_getD (st : List Int × List Int) (e : KbMap) (i : Nat) :
    (foldEntry st e).2.getD i 0 =
      if 0 ≤ e.button ∧ e.button = (i : Int) then e.value else st.2.getD i 0 := by
  unfold foldEntry
  by_cases hb : 0 ≤ e.button
  · rw [if_pos hb]
    show ((densePad st.2 e.button.toNat).set e.button.toNat e.value).getD i 0 = _
    rw [getD_set]
    by_cases hei : e.button = (i : Int)
    · have ht : e.button.toNat = i := by omega
      rw [if_pos ⟨ht, densePad_lt st.2 e.button.toNat⟩, if_pos ⟨hb, hei⟩]
    · have ht : e.button.toNat ≠ i := by omega
      rw [if_neg (fun h => ht h.1), if_neg (fun h => hei h.2), getD_densePad]
  · rw [if_neg hb]
    by_cases ha : 0 ≤ e.axis
    · rw [if_pos ha]
      show st.2.getD i 0 = _
      rw [if_neg (fun h => hb h.1)]
    · rw [if_neg ha]
      show st.2.getD i 0 = _
      rw [if_neg (fun h => hb h.1)]

/-- Effect of one fold iteration on the axes array, slot by slot. -/
theorem foldEntry_axes_getD (st : List Int × List Int) (e : KbMap) (i : Nat) :
    (foldEntry st e).1.getD i 0 =
      st.1.getD i 0 +
        (if ¬ 0 ≤ e.button ∧ e.axis = (i : Int) then axisDelta e else 0) := by
  unfold foldEntry
  by_cases hb : 0 ≤ e.button
  · rw [if_pos hb, if_neg (fun h => h.1 hb)]
    show st.1.getD i 0 = st.1.getD i 0 + 0
    rw [Int.add_zero]
  · rw [if_neg hb]
    by_cases ha : 0 ≤ e.axis
    · rw [if_pos ha]
      show ((densePad st.1 e.axis.toNat).set e.axis.toNat _).getD i 0 = _
      rw [getD_set]
      by_cases hei : e.axis = (i : Int)
      · have ht : e.axis.toNat = i := by omega
        have hcond : e.axis.toNat = i ∧
            e.axis.toNat < (densePad st.1 e.axis.toNat).length :=
          ⟨ht, densePad_lt st.1 e.axis.toNat⟩
        have hcond2 : ¬ 0 ≤ e.button ∧ e.axis = (i : Int) := ⟨hb, hei⟩
        rw [if_pos hcond, if_pos hcond2, getD_densePad, ht]
        rfl
      · have ht : e.axis.toNat ≠ i := by omega
        rw [if_neg (fun h => ht h.1), getD_densePad, if_neg (fun h => hei h.2),
          Int.add_zero]
    · rw [if_neg ha]
      have hc : ¬ (¬ 0 ≤ e.button ∧ e.axis = (i : Int)) := by
        intro h
        obtain ⟨h1, h2⟩ := h
        omega
      rw [if_neg hc, Int.add_zero]

/-- Fold characterization for buttons: slot `i` holds the last written
value, or the initial slot content when no entry targets `i`. -/
theorem foldl_buttons_getD (es : List KbMap) (st : List Int × List Int) (i : Nat) :
    (es.foldl foldEntry st).2.getD i 0 =
      (lastButtonValue es i).getD (st.2.getD i 0) := by
  induction es generalizing st with
  | nil => rfl
  | cons e rest ih =>
      rw [List.foldl_cons, ih, lastButtonValue_cons]
      cases hrest : lastButtonValue rest i with
      | some v => rfl
      | none =>
          show (foldEntry st e).2.getD i 0 = _
          rw [foldEntry_buttons_getD]
          by_cases hei : e.button = (i : Int)
          · have hb : 0 ≤ e.button := by omega
            rw [if_pos ⟨hb, hei⟩, if_pos hei]
            rfl
          · rw [if_neg (fun h => hei h.2), if_neg hei]
            rfl

/-- Fold characterization for axes: slot `i` accumulates the initial slot
content plus the signed contributions of all entries reaching axis `i`. -/
theorem foldl_axes_getD (es : List KbMap) (st : List Int × List Int) (i : Nat) :
    (es.foldl foldEntry st).1.getD i 0 = st.1.getD i 0 + axisSum es i := by
  induction es generalizing st with
  | nil => show st.1.getD i 0 = st.1.getD i 0 + 0; rw [Int.add_zero]
  | cons e rest ih =>
      rw [List.foldl_cons, ih, foldEntry_axes_getD, axisSum_cons]
      ring

theorem foldEntry_buttons_length (st : List Int × List Int) (e : KbMap) :
    (foldEntry st e).2.length =
      if 0 ≤ e.button then max st.2.length (e.button.toNat + 1) else st.2.length := by
  unfold foldEntry
  by_cases hb : 0 ≤ e.button
  · rw [if_pos hb, if_pos hb]
    show ((densePad st.2 e.button.toNat).set e.button.toNat e.value).length = _
    rw [List.length_set, densePad_length]
  · rw [if_neg hb, if_neg hb]
    by_cases ha : 0 ≤ e.axis
    · rw [if_pos ha]
    · rw [if_neg ha]

theorem foldEntry_axes_length (st : List Int × List Int) (e : KbMap) :
    (foldEntry st e).1.length =
      if ¬ 0 ≤ e.button ∧ 0 ≤ e.axis then max st.1.length (e.axis.toNat + 1)
      else st.1.length := by
  unfold foldEntry
  by_cases hb : 0 ≤ e.button
  · rw [if_pos hb, if_neg (fun h => h.1 hb)]
  · rw [if_neg hb]
    by_cases ha : 0 ≤ e.axis
    · rw [if_pos ha]
      show ((densePad st.1 e.axis.toNat).set e.axis.toNat _).length = _
      have hcond : ¬ 0 ≤ e.button ∧ 0 ≤ e.axis := ⟨hb, ha⟩
      rw [List.length_set, densePad_length, if_pos hcond]
    · rw [if_neg ha, if_neg (fun h => ha h.2)]

theorem buttonsLenFrom_cons (e : KbMap) (rest : List KbMap) (n : Nat) :
    buttonsLenFrom (e :: rest) n =
      buttonsLenFrom rest (if 0 ≤ e.button then max n (e.button.toNat + 1) else n) := rfl

theorem axesLenFrom_cons (e : KbMap) (rest : List KbMap) (n : Nat) :
    axesLenFrom (e :: rest) n =
      axesLenFrom rest
        (if ¬ 0 ≤ e.button ∧ 0 ≤ e.axis then max n (e.axis.toNat + 1) else n) := rfl

/-- Fold characterization for the buttons length. -/
theorem foldl_buttons_length (es : List KbMap) (st : List Int × List Int) :
    (es.foldl foldEntry st).2.length = buttonsLenFrom es st.2.length := by
  induction es generalizing st with
  | nil => rfl
  | cons e rest ih =>
      rw [List.foldl_cons, ih, buttonsLenFrom_cons, foldEntry_buttons_length]

/-- Fold characterization for the axes length. -/
theorem foldl_axes_length (es : List KbMap) (st : List Int × List Int) :
    (es.foldl foldEntry st).1.length = axesLenFrom es st.1.length := by
  induction es generalizing st with
  | nil => rfl
  | cons e rest ih =>
      rw [List.foldl_cons, ih, axesLenFrom_cons, foldEntry_axes_length]

/-! ### Lemmas about the tracked-keys map -/

theorem hasKey_eq_false_iff (m : TrackedKeys) (k : String) :
    hasKey m k = false ↔ ∀ p ∈ m, p.1 ≠ k := by
  unfold hasKey
  rw [Bool.eq_false_iff, Ne, List.any_eq_true]
  constructor
  · intro h p hp hpk
    exact h ⟨p, hp, decide_eq_true hpk⟩
  · rintro h ⟨p, hp, hd⟩
    exact h p hp (of_decide_eq_true hd)

theorem mem_mapSet (m : TrackedKeys) (k : String) (v : KbMap)
    (p : String × KbMap) (hp : p ∈ mapSet m k v) : p ∈ m ∨ p = (k, v) := by
  unfold mapSet at hp
  by_cases hk : hasKey m k
  · rw [if_pos hk] at hp
    obtain ⟨q, hq, hfq⟩ := List.mem_map.mp hp
    by_cases hq1 : q.1 = k
    · right
      rw [if_pos hq1] at hfq
      exact hfq.symm
    · left
      rw [if_neg hq1] at hfq
      exact hfq ▸ hq
  · rw [if_neg hk] at hp
    rcases List.mem_append.mp hp with h | h
    · exact Or.inl h
    · exact Or.inr (List.mem_singleton.mp h)

theorem mem_setValue (m : TrackedKeys) (k : String) (v : Int)
    (p : String × KbMap) (hp : p ∈ setValue m k v) :
    (∃ q ∈ m, p = q) ∨ (∃ q ∈ m, p = (q.1, { q.2 with value := v })) := by
  unfold setValue at hp
  by_cases hk : hasKey m k
  · rw [if_pos hk] at hp
    obtain ⟨q, hq, hfq⟩ := List.mem_map.mp hp
    by_cases hq1 : q.1 = k
    · right
      rw [if_pos hq1] at hfq
      exact ⟨q, hq, hfq.symm⟩
    · left
      rw [if_neg hq1] at hfq
      exact ⟨q, hq, hfq.symm⟩
  · rw [if_neg hk] at hp
    exact Or.inl ⟨p, hp, rfl⟩

theorem setValue_untracked (m : TrackedKeys) (k : String) (v : Int)
    (hk : hasKey m k = false) : setValue m k v = m := by
  unfold setValue
  rw [hk]
  rfl

theorem setValue_at_key (m : TrackedKeys) (k : String) (v : Int)
    (p : String × KbMap) (hp : p ∈ setValue m k v) (hpk : p.1 = k) :
    p.2.value = v := by
  unfold setValue at hp
  by_cases hk : hasKey m k
  · rw [if_pos hk] at hp
    obtain ⟨q, hq, hfq⟩ := List.mem_map.mp hp
    by_cases hq1 : q.1 = k
    · rw [if_pos hq1] at hfq
      rw [← hfq]
    · rw [if_neg hq1] at hfq
      exact absurd (hfq ▸ hpk) hq1
  · rw [if_neg hk] at hp
    exact absurd hpk ((hasKey_eq_false_iff m k).mp (Bool.of_not_eq_true hk) p hp)

/-- Every entry produced by the initializer is `makeKbMap` of a definition
entry: no entry is rejected, altered or validated. -/
theorem mem_trackedKeysInit (defs : List (String × KbMapDef))
    (p : String × KbMap) (hp : p ∈ trackedKeysInit defs) :
    ∃ d ∈ defs, p = (d.1, makeKbMap d.2) := by
  unfold trackedKeysInit at hp
  suffices h : ∀ (l : List (String × KbMapDef)) (acc : TrackedKeys),
      (∀ q ∈ acc, ∃ d ∈ defs, q = (d.1, makeKbMap d.2)) →
      (∀ d ∈ l, d ∈ defs) →
      ∀ q ∈ l.foldl (fun m p => mapSet m p.1 (makeKbMap p.2)) acc,
        ∃ d ∈ defs, q = (d.1, makeKbMap d.2) by
    exact h defs [] (fun q hq => absurd hq (List.not_mem_nil q)) (fun d hd => hd) p hp
  intro l
  induction l with
  | nil => intro acc hacc _ q hq; exact hacc q hq
  | cons d rest ih =>
      intro acc hacc hsub q hq
      rw [List.foldl_cons] at hq
      refine ih (mapSet acc d.1 (makeKbMap d.2)) ?_ (fun x hx => hsub x (List.mem_cons_of_mem d hx)) q hq
      intro r hr
      rcases mem_mapSet acc d.1 (makeKbMap d.2) r hr with h | h
      · exact hacc r h
      · exact ⟨d, hsub d (List.mem_cons_self d rest), h⟩

theorem lastButtonValue_some_mem (es : List KbMap) (i : Nat) (v : Int)
    (h : lastButtonValue es i = some v) :
    ∃ e ∈ es, e.button = (i : Int) ∧ e.value = v := by
  induction es with
  | nil => exact absurd h (by rw [show lastButtonValue [] i = none from rfl]; exact Option.noConfusion)
  | cons e rest ih =>
      rw [lastButtonValue_cons] at h
      cases hrest : lastButtonValue rest i with
      | some w =>
          rw [hrest] at h
          obtain ⟨q, hq, hqi, hqv⟩ := ih (hrest.trans (by rw [← h]))
          exact ⟨q, List.mem_cons_of_mem e hq, hqi, hqv⟩
      | none =>
          rw [hrest] at h
          by_cases hei : e.button = (i : Int)
          · rw [if_pos hei] at h
            exact ⟨e, List.mem_cons_self e rest, hei, Option.some_injective _ h⟩
          · rw [if_neg hei] at h
            exact absurd h Option.noConfusion

theorem axisSum_eq_zero (es : List KbMap) (i : Nat)
    (h : ∀ e ∈ es, ¬ 0 ≤ e.button → e.axis = (i : Int) → e.value = 0) :
    axisSum es i = 0 := by
  induction es with
  | nil => rfl
  | cons e rest ih =>
      rw [axisSum_cons, ih (fun q hq => h q (List.mem_cons_of_mem e hq)), Int.add_zero]
      by_cases hc : ¬ 0 ≤ e.button ∧ e.axis = (i : Int)
      · rw [if_pos hc]
        unfold axisDelta
        rw [h e (List.mem_cons_self e rest) hc.1 hc.2, Int.mul_zero]
      · rw [if_neg hc]

theorem setValue_value_mem (m : TrackedKeys) (k : String) (v : Int)
    (hv : v = 0 ∨ v = 1) (hm : ∀ p ∈ m, p.2.value = 0 ∨ p.2.value = 1) :
    ∀ p ∈ setValue m k v, p.2.value = 0 ∨ p.2.value = 1 := by
  intro p hp
  rcases mem_setValue m k v p hp with ⟨q, hq, hpq⟩ | ⟨q, hq, hpq⟩
  · exact hpq ▸ hm q hq
  · exact hpq ▸ hv

theorem applyEvents_value_mem (evs : List KEvent) (m : TrackedKeys)
    (hm : ∀ p ∈ m, p.2.value = 0 ∨ p.2.value = 1) :
    ∀ p ∈ applyEvents m evs, p.2.value = 0 ∨ p.2.value = 1 := by
  induction evs generalizing m with
  | nil => exact hm
  | cons e rest ih =>
      intro p hp
      unfold applyEvents at hp
      rw [List.foldl_cons] at hp
      refine ih (applyKEvent m e) ?_ p hp
      cases e with
      | down k => exact setValue_value_mem m k 1 (Or.inr rfl) hm
      | up k => exact setValue_value_mem m k 0 (Or.inl rfl) hm

theorem handleKeyDown_untracked (m : TrackedKeys) (k : String)
    (h : hasKey m k = false) : handleKeyDown m k = m :=
  setValue_untracked m k 1 h

theorem handleKeyUp_untracked (m : TrackedKeys) (k : String)
    (h : hasKey m k = false) : handleKeyUp m k = m :=
  setValue_untracked m k 0 h

theorem runKeyboardEffect_not_keyboard (s : PanelState) (t : Time)
    (h : s.dataSource ≠ DataSource.keyboard) : runKeyboardEffect s t = s := by
  unfold runKeyboardEffect
  rw [if_pos h]

theorem runKeyboardEffect_disabled (s : PanelState) (t : Time)
    (h : s.kbEnabled = false) : runKeyboardEffect s t = s := by
  unfold runKeyboardEffect
  by_cases h1 : s.dataSource ≠ DataSource.keyboard
  · rw [if_pos h1]
  · rw [if_neg h1, if_pos (by rw [h]; exact Bool.false_ne_true)]

theorem runKeyboardEffect_keyboard_enabled (s : PanelState) (t : Time)
    (h1 : s.dataSource = DataSource.keyboard) (h2 : s.kbEnabled = true) :
    runKeyboardEffect s t =
      { s with joy := some (buildKeyboardJoy s.trackedKeys s.publishFrameId t) } := by
  unfold runKeyboardEffect
  rw [if_neg (fun hc => hc h1), if_neg (fun hc => hc h2)]

theorem step_keyDown_tracked (s : PanelState) (k : String) (t : Time) :
    step s (PEvent.keyDown k t) =
      if hasKey s.trackedKeys k then
        runKeyboardEffect { s with trackedKeys := handleKeyDown s.trackedKeys k } t
      else s := rfl

theorem step_keyUp_tracked (s : PanelState) (k : String) (t : Time) :
    step s (PEvent.keyUp k t) =
      if hasKey s.trackedKeys k then
        runKeyboardEffect { s with trackedKeys := handleKeyUp s.trackedKeys k } t
      else s := rfl

/-! ### Claims -/

/-- C2 counterexample: the table initializer performs no validation.  Fed a
definition in which key `"x"` maps both to button 0 and to axis 0 and key
`"y"` has negative target indices, it does not fail: it proceeds and returns
the fully populated table. -/
theorem C2_no_validation_counterexample :
    trackedKeysInit [("x", ⟨0, 0, "+"⟩), ("y", ⟨-1, -1, "+"⟩)] =
      [("x", ⟨0, 0, 1, 0⟩), ("y", ⟨-1, -1, 1, 0⟩)] := by decide

/-- C2 (amended): construction of the key-mapping table never fails and
performs no validation: every definition entry — including one whose key
maps to both an axis and a button, or whose indices are negative — yields a
table entry with `button` and `axis` copied verbatim and `value` initialized
to 0. -/
theorem C2_construction_total (defs : List (String × KbMapDef))
    (p : String × KbMap) (hp : p ∈ trackedKeysInit defs) :
    ∃ d ∈ defs, p.1 = d.1 ∧ p.2.button = d.2.button ∧ p.2.axis = d.2.axis ∧
      p.2.value = 0 := by
  obtain ⟨d, hd, hpd⟩ := mem_trackedKeysInit defs p hp
  subst hpd
  exact ⟨d, hd, rfl, rfl, rfl, rfl⟩

/-- Witness for `C2_construction_total` at a concrete invalid definition. -/
theorem C2_construction_total_witness :
    ∃ d ∈ [("x", (⟨0, 0, "+"⟩ : KbMapDef))],
      ("x", (⟨0, 0, 1, 0⟩ : KbMap)).1 = d.1 ∧
      ("x", (⟨0, 0, 1, 0⟩ : KbMap)).2.button = d.2.button ∧
      ("x", (⟨0, 0, 1, 0⟩ : KbMap)).2.axis = d.2.axis ∧
      ("x", (⟨0, 0, 1, 0⟩ : KbMap)).2.value = 0 :=
  C2_construction_total [("x", ⟨0, 0, "+"⟩)] ("x", ⟨0, 0, 1, 0⟩) (by decide)

/-- C3: additive axis semantics.  With `k1` bound to axis 0 with polarity
`"+"` and `k2` bound to axis 0 with polarity `"-"`, the keyboard-built frame
has `axes[0] = 0` when both are held, `1` when only `k1` is held, and `-1`
when only `k2` is held. -/
theorem C3_additive_axis_semantics :
    (buildKeyboardJoy
        (applyEvents (trackedKeysInit [("k1", ⟨-1, 0, "+"⟩), ("k2", ⟨-1, 0, "-"⟩)])
          [KEvent.down "k1", KEvent.down "k2"]) "f" ⟨0, 0⟩).axes.getD 0 0 = 0 ∧
    (buildKeyboardJoy
        (applyEvents (trackedKeysInit [("k1", ⟨-1, 0, "+"⟩), ("k2", ⟨-1, 0, "-"⟩)])
          [KEvent.down "k1"]) "f" ⟨0, 0⟩).axes.getD 0 0 = 1 ∧
    (buildKeyboardJoy
        (applyEvents (trackedKeysInit [("k1", ⟨-1, 0, "+"⟩), ("k2", ⟨-1, 0, "-"⟩)])
          [KEvent.down "k2"]) "f" ⟨0, 0⟩).axes.getD 0 0 = -1 := by
  decide

/-- C4: dense-fill.  The built buttons (resp. axes) array is exactly as long
as one more than the highest button (resp. axis) index reached by the fold,
every slot not asserted by a held key is 0, and in particular a mapping
whose only button index is 3 yields `buttons = [0, 0, 0, v]` with the three
lower slots 0. -/
theorem C4_dense_fill :
    (∀ es : List KbMap,
      (buildArrays es).2.length = buttonsLenFrom es 0 ∧
      (buildArrays es).1.length = axesLenFrom es 0 ∧
      (∀ i : Nat, (∀ e ∈ es, e.button = (i : Int) → e.value = 0) →
        (buildArrays es).2.getD i 0 = 0) ∧
      (∀ i : Nat, (∀ e ∈ es, ¬ 0 ≤ e.button → e.axis = (i : Int) → e.value = 0) →
        (buildArrays es).1.getD i 0 = 0)) ∧
    (buildKeyboardJoy
        (applyEvents (trackedKeysInit [("b3", ⟨3, -1, "+"⟩)]) [KEvent.down "b3"])
        "f" ⟨0, 0⟩).buttons = [0, 0, 0, 1] ∧
    (buildKeyboardJoy (trackedKeysInit [("b3", ⟨3, -1, "+"⟩)]) "f" ⟨0, 0⟩).buttons =
      [0, 0, 0, 0] := by
  refine ⟨fun es => ⟨?_, ?_, ?_, ?_⟩, by decide, by decide⟩
  · exact foldl_buttons_length es ([], [])
  · exact foldl_axes_length es ([], [])
  · intro i hi
    unfold buildArrays
    rw [foldl_buttons_getD]
    cases hlast : lastButtonValue es i with
    | none => rfl
    | some v =>
        obtain ⟨e, he, hei, hev⟩ := lastButtonValue_some_mem es i v hlast
        rw [Option.getD_some, ← hev]
        exact hi e he hei
  · intro i hi
    unfold buildArrays
    rw [foldl_axes_getD, axisSum_eq_zero es i hi]
    rfl

/-- Witness for `C4_dense_fill` at a concrete slot left neutral. -/
theorem C4_dense_fill_witness :
    (buildArrays [⟨3, -1, 1, 1⟩]).2.getD 1 0 = 0 :=
  (C4_dense_fill.1 [⟨3, -1, 1, 1⟩]).2.2.1 1 (by decide)

/-- C5 counterexample: two keys `"a"` and `"b"` both map to button 0; only
`"a"` is held.  OR-combination would give `buttons[0] = 1`, but the fold
assigns `buttons[value.button] = value.value` per entry, so the later
not-held entry `"b"` overwrites the held entry and the built value is 0. -/
theorem C5_or_combine_counterexample :
    (buildKeyboardJoy
        (applyEvents (trackedKeysInit [("a", ⟨0, -1, "+"⟩), ("b", ⟨0, -1, "+"⟩)])
          [KEvent.down "a"]) "f" ⟨0, 0⟩).buttons.getD 0 0 = 0 ∧
    ¬ (buildKeyboardJoy
        (applyEvents (trackedKeysInit [("a", ⟨0, -1, "+"⟩), ("b", ⟨0, -1, "+"⟩)])
          [KEvent.down "a"]) "f" ⟨0, 0⟩).buttons.getD 0 0 = 1 := by
  decide

/-- C5 (amended): duplicate button indices combine by last-writer-wins, not
OR: the built value at a button index is the `value` of the last mapping
entry (in map iteration order) targeting that index, even when an earlier
entry targeting it is held. -/
theorem C5_last_writer_wins (es : List KbMap) (i : Nat) (v : Int)
    (h : lastButtonValue es i = some v) :
    (buildArrays es).2.getD i 0 = v := by
  unfold buildArrays
  rw [foldl_buttons_getD, h]
  rfl

/-- Witness for `C5_last_writer_wins`: held entry first, neutral entry
last, the built value is the 0 of the last entry. -/
theorem C5_last_writer_wins_witness :
    (buildArrays [⟨0, -1, 1, 1⟩, ⟨0, -1, 1, 0⟩]).2.getD 0 0 = 0 :=
  C5_last_writer_wins [⟨0, -1, 1, 1⟩, ⟨0, -1, 1, 0⟩] 0 0 (by decide)

/-- C7: replay pass-through.  Whenever the inbound message list has a last
message, the replay effect produces exactly that message re-labelled with
the configured output `frame_id`: the stamp and the two arrays are copied
verbatim. -/
theorem C7_replay_passthrough (messages : List Joy) (msg : Joy) (fid : String)
    (oldJoy : Option Joy) (h : messages.getLast? = some msg) :
    replayEffect messages fid oldJoy =
      some { header := { stamp := msg.header.stamp, frame_id := fid }
             axes := msg.axes
             buttons := msg.buttons } := by
  unfold replayEffect
  rw [h]

/-- Witness for `C7_replay_passthrough`: inbound frame_id `"X"`, configured
output frame_id `"Y"`. -/
theorem C7_replay_passthrough_witness :
    replayEffect [⟨⟨⟨1, 2⟩, "X"⟩, [3, -4], [1, 0]⟩] "Y" none =
      some ⟨⟨⟨1, 2⟩, "Y"⟩, [3, -4], [1, 0]⟩ :=
  C7_replay_passthrough [⟨⟨⟨1, 2⟩, "X"⟩, [3, -4], [1, 0]⟩]
    ⟨⟨⟨1, 2⟩, "X"⟩, [3, -4], [1, 0]⟩ "Y" none (by decide)

/-- C8: topic-switch hygiene.  With publish mode on and a non-empty previous
topic `a`, running the advertise effect for a new topic `b` emits exactly
one `unadvertise(a)` followed by exactly one `advertise(b)`, and remembers
`b`. -/
theorem C8_topic_switch (a b : String) (ha : a ≠ "") :
    (advertiseEffect true (some a) b).1 =
      [AdCall.unadvertise a, AdCall.advertise b "sensor_msgs/Joy"] ∧
    (advertiseEffect true (some a) b).2 = some b := by
  refine ⟨?_, rfl⟩
  show (if a ≠ "" then [AdCall.unadvertise a] else []) ++
      [AdCall.advertise b "sensor_msgs/Joy"] =
    [AdCall.unadvertise a, AdCall.advertise b "sensor_msgs/Joy"]
  rw [if_pos ha]
  rfl

/-- Witness for `C8_topic_switch` at `"/a"` → `"/b"`. -/
theorem C8_topic_switch_witness :
    (advertiseEffect true (some "/a") "/b").1 =
      [AdCall.unadvertise "/a", AdCall.advertise "/b" "sensor_msgs/Joy"] ∧
    (advertiseEffect true (some "/a") "/b").2 = some "/b" :=
  C8_topic_switch "/a" "/b" (by decide)

/-- C9: tracker invariants.  (1) From any constructed table, every key
sequence keeps the `value` of every entry in the set containing 0 and 1.  (2) A key-up on a tracked
key leaves its entry at value 0 regardless of history — in particular even
if no key-down was ever observed.  (3) Events for untracked keys leave the
state unchanged. -/
theorem C9_tracker_invariants :
    (∀ (defs : List (String × KbMapDef)) (evs : List KEvent),
      ∀ p ∈ applyEvents (trackedKeysInit defs) evs,
        p.2.value = 0 ∨ p.2.value = 1) ∧
    (∀ (m : TrackedKeys) (k : String), ∀ p ∈ handleKeyUp m k,
      p.1 = k → p.2.value = 0) ∧
    (∀ (m : TrackedKeys) (k : String), hasKey m k = false →
      handleKeyDown m k = m ∧ handleKeyUp m k = m) := by
  refine ⟨fun defs evs => ?_, fun m k p hp hpk => ?_, fun m k hk => ?_⟩
  · refine applyEvents_value_mem evs (trackedKeysInit defs) ?_
    intro p hp
    obtain ⟨d, _, hpd⟩ := mem_trackedKeysInit defs p hp
    subst hpd
    exact Or.inl rfl
  · exact setValue_at_key m k 0 p hp hpk
  · exact ⟨setValue_untracked m k 1 hk, setValue_untracked m k 0 hk⟩

/-- Witness for `C9_tracker_invariants`: a key-up with no preceding
key-down, a membership check, and an untracked key. -/
theorem C9_tracker_invariants_witness :
    (("a", (⟨0, -1, 1, 0⟩ : KbMap)).2.value = 0 ∨
      ("a", (⟨0, -1, 1, 0⟩ : KbMap)).2.value = 1) ∧
    ("a", (⟨0, -1, 1, 0⟩ : KbMap)).2.value = 0 ∧
    (handleKeyDown [("a", ⟨0, -1, 1, 0⟩)] "z" = [("a", ⟨0, -1, 1, 0⟩)] ∧
      handleKeyUp [("a", ⟨0, -1, 1, 0⟩)] "z" = [("a", ⟨0, -1, 1, 0⟩)]) :=
  ⟨C9_tracker_invariants.1 [("a", ⟨0, -1, "+"⟩)] [KEvent.up "a"]
      ("a", ⟨0, -1, 1, 0⟩) (by decide),
    C9_tracker_invariants.2.1 [("a", ⟨0, -1, 1, 1⟩)] "a"
      ("a", ⟨0, -1, 1, 0⟩) (by decide) rfl,
    C9_tracker_invariants.2.2 [("a", ⟨0, -1, 1, 0⟩)] "z" (by decide)⟩

/-- C10: button precedence.  For an entry whose button and axis indices are
both non-negative, one fold iteration leaves the axes array untouched and
only writes the button slot: the axis branch is never reached. -/
theorem C10_button_precedence (st : List Int × List Int) (e : KbMap)
    (hb : 0 ≤ e.button) (ha : 0 ≤ e.axis) :
    (foldEntry st e).1 = st.1 ∧
    (foldEntry st e).2 = (densePad st.2 e.button.toNat).set e.button.toNat e.value := by
  unfold foldEntry
  rw [if_pos hb]
  exact ⟨rfl, rfl⟩

/-- Witness for `C10_button_precedence`: an entry with `button = 2` and
`axis = 5` writes only button slot 2. -/
theorem C10_button_precedence_witness :
    (foldEntry ([], []) ⟨2, 5, 1, 1⟩).1 = [] ∧
    (foldEntry ([], []) ⟨2, 5, 1, 1⟩).2 = (densePad [] 2).set 2 1 :=
  C10_button_precedence ([], []) ⟨2, 5, 1, 1⟩ (by decide) (by decide)

/-- C1 counterexample: with the keyboard source active and key `"a"` held
(button 0 asserted, so `joy.buttons = [1]`), disabling the tracker does NOT
produce a frame with neutral values: the frame-build effect bails out and
the last emitted frame, still showing `buttons = [1]`, remains. -/
theorem C1_disable_neutral_counterexample :
    ((step (step ⟨DataSource.keyboard, true,
          trackedKeysInit [("a", ⟨0, -1, "+"⟩)], "f", none⟩
          (PEvent.keyDown "a" ⟨1, 0⟩))
        (PEvent.setKbEnabled false ⟨2, 0⟩)).joy.map Joy.buttons) = some [1] ∧
    ¬ ((step (step ⟨DataSource.keyboard, true,
          trackedKeysInit [("a", ⟨0, -1, "+"⟩)], "f", none⟩
          (PEvent.keyDown "a" ⟨1, 0⟩))
        (PEvent.setKbEnabled false ⟨2, 0⟩)).joy.map Joy.buttons) = some [0] := by
  decide

/-- C1 (amended): disabling the keyboard tracker builds no new frame at
all — the emitted frame is left unchanged rather than forced to neutral —
while the underlying key state is kept, and re-enabling immediately rebuilds
the frame from the retained held-key state. -/
theorem C1_disable_gate (s : PanelState) (t1 t2 : Time)
    (hds : s.dataSource = DataSource.keyboard) :
    (step s (PEvent.setKbEnabled false t1)).joy = s.joy ∧
    (step s (PEvent.setKbEnabled false t1)).trackedKeys = s.trackedKeys ∧
    (step (step s (PEvent.setKbEnabled false t1)) (PEvent.setKbEnabled true t2)).joy =
      some (buildKeyboardJoy s.trackedKeys s.publishFrameId t2) := by
  have h1 : step s (PEvent.setKbEnabled false t1) = { s with kbEnabled := false } := by
    show runKeyboardEffect { s with kbEnabled := false } t1 = _
    exact runKeyboardEffect_disabled _ t1 rfl
  have h2 : step { s with kbEnabled := false } (PEvent.setKbEnabled true t2) =
      { s with
        kbEnabled := true
        joy := some (buildKeyboardJoy s.trackedKeys s.publishFrameId t2) } := by
    show runKeyboardEffect { s with kbEnabled := true } t2 = _
    exact runKeyboardEffect_keyboard_enabled { s with kbEnabled := true } t2 hds rfl
  exact ⟨by rw [h1], by rw [h1], by rw [h1, h2]⟩

/-- Witness for `C1_disable_gate`: a concrete enabled keyboard state with a
held key. -/
theorem C1_disable_gate_witness :
    (step (⟨DataSource.keyboard, true, [("a", ⟨0, -1, 1, 1⟩)], "f", none⟩ : PanelState)
        (PEvent.setKbEnabled false ⟨1, 0⟩)).joy = none ∧
    (step (⟨DataSource.keyboard, true, [("a", ⟨0, -1, 1, 1⟩)], "f", none⟩ : PanelState)
        (PEvent.setKbEnabled false ⟨1, 0⟩)).trackedKeys = [("a", ⟨0, -1, 1, 1⟩)] ∧
    (step (step (⟨DataSource.keyboard, true, [("a", ⟨0, -1, 1, 1⟩)], "f", none⟩ : PanelState)
          (PEvent.setKbEnabled false ⟨1, 0⟩))
        (PEvent.setKbEnabled true ⟨2, 0⟩)).joy =
      some (buildKeyboardJoy [("a", ⟨0, -1, 1, 1⟩)] "f" ⟨2, 0⟩) :=
  C1_disable_gate ⟨DataSource.keyboard, true, [("a", ⟨0, -1, 1, 1⟩)], "f", none⟩
    ⟨1, 0⟩ ⟨2, 0⟩ rfl

/-- C6: source isolation.  While the gamepad source is active, a key-down or
key-up changes the emitted frame in no way, yet the tracked-key state is
updated exactly as the handlers prescribe; switching the source to keyboard
afterwards (with the tracker enabled) immediately emits the frame built
from the retained key state. -/
theorem C6_source_isolation (s : PanelState) (k : String) (t1 t2 : Time)
    (hds : s.dataSource = DataSource.gamepad) :
    (step s (PEvent.keyDown k t1)).joy = s.joy ∧
    (step s (PEvent.keyDown k t1)).trackedKeys = handleKeyDown s.trackedKeys k ∧
    (step s (PEvent.keyUp k t1)).joy = s.joy ∧
    (step s (PEvent.keyUp k t1)).trackedKeys = handleKeyUp s.trackedKeys k ∧
    (s.kbEnabled = true →
      (step (step s (PEvent.keyDown k t1)) (PEvent.setSource DataSource.keyboard t2)).joy =
        some (buildKeyboardJoy (handleKeyDown s.trackedKeys k) s.publishFrameId t2)) := by
  have hne : s.dataSource ≠ DataSource.keyboard := by
    rw [hds]
    exact fun h => DataSource.noConfusion h
  have hd : step s (PEvent.keyDown k t1) =
      { s with trackedKeys := handleKeyDown s.trackedKeys k } := by
    rw [step_keyDown_tracked]
    by_cases hk : hasKey s.trackedKeys k
    · rw [if_pos hk, runKeyboardEffect_not_keyboard
        { s with trackedKeys := handleKeyDown s.trackedKeys k } t1 hne]
    · rw [if_neg hk, handleKeyDown_untracked _ _ (Bool.of_not_eq_true hk)]
  have hu : step s (PEvent.keyUp k t1) =
      { s with trackedKeys := handleKeyUp s.trackedKeys k } := by
    rw [step_keyUp_tracked]
    by_cases hk : hasKey s.trackedKeys k
    · rw [if_pos hk, runKeyboardEffect_not_keyboard
        { s with trackedKeys := handleKeyUp s.trackedKeys k } t1 hne]
    · rw [if_neg hk, handleKeyUp_untracked _ _ (Bool.of_not_eq_true hk)]
  refine ⟨by rw [hd], by rw [hd], by rw [hu], by rw [hu], fun hen => ?_⟩
  rw [hd]
  show (runKeyboardEffect
      { s with
        trackedKeys := handleKeyDown s.trackedKeys k
        dataSource := DataSource.keyboard } t2).joy = _
  rw [runKeyboardEffect_keyboard_enabled
      { s with
        trackedKeys := handleKeyDown s.trackedKeys k
        dataSource := DataSource.keyboard } t2 rfl hen]

/-- Witness for `C6_source_isolation`: gamepad active, key `"a"` pressed,
then the source switched to keyboard. -/
theorem C6_source_isolation_witness :
    (step (⟨DataSource.gamepad, true, [("a", ⟨0, -1, 1, 0⟩)], "f", none⟩ : PanelState)
        (PEvent.keyDown "a" ⟨1, 0⟩)).joy = none ∧
    (step (⟨DataSource.gamepad, true, [("a", ⟨0, -1, 1, 0⟩)], "f", none⟩ : PanelState)
        (PEvent.keyDown "a" ⟨1, 0⟩)).trackedKeys =
      handleKeyDown [("a", ⟨0, -1, 1, 0⟩)] "a" ∧
    (step (⟨DataSource.gamepad, true, [("a", ⟨0, -1, 1, 0⟩)], "f", none⟩ : PanelState)
        (PEvent.keyUp "a" ⟨1, 0⟩)).joy = none ∧
    (step (⟨DataSource.gamepad, true, [("a", ⟨0, -1, 1, 0⟩)], "f", none⟩ : PanelState)
        (PEvent.keyUp "a" ⟨1, 0⟩)).trackedKeys =
      handleKeyUp [("a", ⟨0, -1, 1, 0⟩)] "a" ∧
    (true = true →
      (step (step (⟨DataSource.gamepad, true, [("a", ⟨0, -1, 1, 0⟩)], "f", none⟩ : PanelState)
            (PEvent.keyDown "a" ⟨1, 0⟩))
          (PEvent.setSource DataSource.keyboard ⟨2, 0⟩)).joy =
        some (buildKeyboardJoy (handleKeyDown [("a", ⟨0, -1, 1, 0⟩)] "a") "f" ⟨2, 0⟩)) :=
  C6_source_isolation ⟨DataSource.gamepad, true, [("a", ⟨0, -1, 1, 0⟩)], "f", none⟩
    "a" ⟨1, 0⟩ ⟨2, 0⟩ rfl

end JoyPanel
